import Mathlib

/-!
Verification of the core logic of `src/app.py` (solar-rooftop-analyzer).

Two pieces of the source are embedded:

* the JSON-extraction step of `analyze_image` (app.py lines 83-92): it finds
  the first brace and the last closing brace with Python `str.find` /
  `str.rfind`, slices the text with Python slice semantics (including the
  `-1` index produced by a failed `find`), runs `json.loads` on the slice,
  and on any exception emits two Streamlit messages and returns `None`;
* `calculate_roi` (app.py lines 101-121), a pure arithmetic function.

Modelling conventions:
* Python strings are `List Char`; `str.find`, `str.rfind` and slicing are
  reproduced exactly, including negative-index normalisation.
* `json.loads` is modelled by an executable recursive-descent decoder of
  the JSON grammar (objects, arrays, strings with escapes, numbers,
  literals, strict trailing-content check, duplicate keys overwriting in
  place as Python dicts do).  A JSON number literal is kept as its decimal
  mantissa and power-of-ten exponent; the conversion to an IEEE float is
  abstracted away, which is sound here because no claim compares two
  different textual spellings of one number.
* Python floats in `calculate_roi` are modelled as exact rationals; the
  spec states the formulas over exact arithmetic and all its example
  values are exactly representable.
* `float("inf")` is modelled by the dedicated constructor
  `PaybackValue.posInf`.
* The Streamlit calls `st.error`/`st.text` on the failure path are
  modelled as a list of emitted messages in the returned `ParseOutcome`.
-/

/-! ## Python string primitives -/

/-- Index of the first occurrence of `c`, if any (`str.find` before the
`-1` encoding). -/
def firstIdx (c : Char) : List Char → Option Nat
  | [] => none
  | x :: xs => if x = c then some 0 else (firstIdx c xs).map (· + 1)

/-- Index of the last occurrence of `c`, if any (`str.rfind` before the
`-1` encoding). -/
def lastIdx (c : Char) : List Char → Option Nat
  | [] => none
  | x :: xs =>
    match lastIdx c xs with
    | some i => some (i + 1)
    | none => if x = c then some 0 else none

/-- Python `str.find`: first index of `c`, or `-1`. -/
def pyFind (c : Char) (s : List Char) : Int :=
  match firstIdx c s with
  | some i => (i : Int)
  | none => -1

/-- Python `str.rfind`: last index of `c`, or `-1`. -/
def pyRfind (c : Char) (s : List Char) : Int :=
  match lastIdx c s with
  | some i => (i : Int)
  | none => -1

/-- Python slice-index normalisation: negative indices count from the end
and are clamped at `0`; nonnegative indices are clamped at the length. -/
def pyNormIdx (len : Nat) (i : Int) : Nat :=
  if i < 0 then (i + len).toNat else min i.toNat len

/-- Python slice `s[a:b]` (step 1). -/
def pySlice (s : List Char) (a b : Int) : List Char :=
  let st := pyNormIdx s.length a
  let en := pyNormIdx s.length b
  (s.drop st).take (en - st)

/-! ## Model of `json.loads` -/

/-- JSON values as decoded by `json.loads`.  A number is kept as decimal
mantissa and power-of-ten exponent (`mant * 10 ^ exp10`). -/
inductive Json where
  | null
  | bool (b : Bool)
  | num (mant : Int) (exp10 : Int)
  | str (s : List Char)
  | arr (xs : List Json)
  | obj (m : List (List Char × Json))

/-- Python-dict insertion: an existing key keeps its position and its value
is overwritten; a new key is appended. -/
def insertKV : List (List Char × Json) → List Char → Json → List (List Char × Json)
  | [], k, v => [(k, v)]
  | (k0, v0) :: rest, k, v =>
    if k0 = k then (k0, v) :: rest else (k0, v0) :: insertKV rest k v

/-- JSON whitespace. -/
def isWsChar (c : Char) : Bool :=
  c = ' ' || c = '\t' || c = '\n' || c = '\r'

/-- Drop leading JSON whitespace. -/
def skipWs : List Char → List Char
  | [] => []
  | c :: cs => if isWsChar c then skipWs cs else c :: cs

/-- Decimal digit test, by code point. -/
def isDigitCh (c : Char) : Bool := c.toNat ≥ 48 && c.toNat ≤ 57

/-- Numeric value of a decimal digit character. -/
def digitVal (c : Char) : Nat := c.toNat - 48

/-- Split off the maximal leading run of decimal digits. -/
def takeDigits : List Char → List Char × List Char
  | [] => ([], [])
  | c :: cs =>
    if isDigitCh c then
      let p := takeDigits cs
      (c :: p.1, p.2)
    else ([], c :: cs)

def digitsToNat (ds : List Char) : Nat :=
  ds.foldl (fun a c => a * 10 + digitVal c) 0

/-- Fractional part of a JSON number: `.` followed by at least one digit.
Returns the fraction digits (possibly none when no `.` is present). -/
def parseFrac (s : List Char) : Option (List Char × List Char) :=
  match s with
  | '.' :: r =>
    let p := takeDigits r
    if p.1.isEmpty then none else some (p.1, p.2)
  | _ => some ([], s)

/-- Exponent part of a JSON number: `e`/`E`, optional sign, digits. -/
def parseExp (s : List Char) : Option (Int × List Char) :=
  match s with
  | c :: r =>
    if c = 'e' || c = 'E' then
      let (sgn, r1) : Int × List Char :=
        match r with
        | '+' :: r2 => (1, r2)
        | '-' :: r2 => (-1, r2)
        | _ => (1, r)
      let p := takeDigits r1
      if p.1.isEmpty then none else some (sgn * (digitsToNat p.1 : Int), p.2)
    else some (0, c :: r)
  | [] => some (0, [])

/-- A JSON number literal: optional minus, integer part without leading
zeros, optional fraction, optional exponent. -/
def parseNumberCore (s : List Char) : Option (Json × List Char) :=
  let (neg, s1) : Bool × List Char :=
    match s with
    | '-' :: r => (true, r)
    | _ => (false, s)
  let ip := takeDigits s1
  if ip.1.isEmpty then none
  else if ip.1.length > 1 && ip.1.head? = some '0' then none
  else
    match parseFrac ip.2 with
    | none => none
    | some (fds, s3) =>
      match parseExp s3 with
      | none => none
      | some (e, s4) =>
        let mant : Int := (digitsToNat (ip.1 ++ fds) : Int)
        let mant' := if neg then -mant else mant
        some (Json.num mant' (e - fds.length), s4)

/-- Value of one hexadecimal digit, by code point (upper or lower case
letters accepted, as in Python). -/
def hexVal (c : Char) : Option Nat :=
  let n := c.toNat
  if n ≥ 48 && n ≤ 57 then some (n - 48)
  else if n ≥ 97 && n ≤ 102 then some (n - 87)
  else if n ≥ 65 && n ≤ 70 then some (n - 55)
  else none

/-- Single-character escapes of JSON strings. -/
def escChar (c : Char) : Option Char :=
  if c = '"' then some '"'
  else if c = '\\' then some '\\'
  else if c = '/' then some '/'
  else if c = 'b' then some '\x08'
  else if c = 'f' then some '\x0c'
  else if c = 'n' then some '\n'
  else if c = 'r' then some '\r'
  else if c = 't' then some '\t'
  else none

/-- Body of a JSON string after the opening quote; returns the decoded
characters and the remainder after the closing quote.  Unescaped control
characters are rejected as in Python strict mode. -/
def parseStringBody : Nat → List Char → Option (List Char × List Char)
  | 0, _ => none
  | _ + 1, [] => none
  | fuel + 1, c :: cs =>
    if c = '"' then some ([], cs)
    else if c = '\\' then
      match cs with
      | 'u' :: h1 :: h2 :: h3 :: h4 :: cs2 =>
        match hexVal h1, hexVal h2, hexVal h3, hexVal h4 with
        | some a, some b, some c3, some d =>
          match parseStringBody fuel cs2 with
          | some (out, r) => some (Char.ofNat (((a * 16 + b) * 16 + c3) * 16 + d) :: out, r)
          | none => none
        | _, _, _, _ => none
      | e :: cs2 =>
        match escChar e with
        | some ec =>
          match parseStringBody fuel cs2 with
          | some (out, r) => some (ec :: out, r)
          | none => none
        | none => none
      | [] => none
    else if c.toNat < 32 then none
    else
      match parseStringBody fuel cs with
      | some (out, r) => some (c :: out, r)
      | none => none

mutual

/-- Recursive-descent JSON value, with leading whitespace skipping.  The
fuel only bounds nesting; `json_loads` supplies enough for any input. -/
def parseValue : Nat → List Char → Option (Json × List Char)
  | 0, _ => none
  | fuel + 1, s =>
    match skipWs s with
    | [] => none
    | c :: r =>
      if c = '\x7b' then
        match skipWs r with
        | '\x7d' :: rest => some (Json.obj [], rest)
        | t => parseMembers fuel t []
      else if c = '[' then
        match skipWs r with
        | ']' :: rest => some (Json.arr [], rest)
        | t => parseElems fuel t []
      else if c = '"' then
        match parseStringBody (r.length + 1) r with
        | some (out, rest) => some (Json.str out, rest)
        | none => none
      else if c = 't' then
        match r with
        | 'r' :: 'u' :: 'e' :: rest => some (Json.bool true, rest)
        | _ => none
      else if c = 'f' then
        match r with
        | 'a' :: 'l' :: 's' :: 'e' :: rest => some (Json.bool false, rest)
        | _ => none
      else if c = 'n' then
        match r with
        | 'u' :: 'l' :: 'l' :: rest => some (Json.null, rest)
        | _ => none
      else if c = '-' || isDigitCh c then parseNumberCore (c :: r)
      else none

/-- Members of a JSON object after `{` (first member: input is past the
whitespace and is known not to start with `}`). -/
def parseMembers : Nat → List Char → List (List Char × Json) → Option (Json × List Char)
  | 0, _, _ => none
  | fuel + 1, s, acc =>
    match s with
    | '"' :: r =>
      match parseStringBody (r.length + 1) r with
      | some (key, r1) =>
        match skipWs r1 with
        | ':' :: r2 =>
          match parseValue fuel r2 with
          | some (v, r3) =>
            match skipWs r3 with
            | ',' :: r4 => parseMembers fuel (skipWs r4) (insertKV acc key v)
            | '\x7d' :: r4 => some (Json.obj (insertKV acc key v), r4)
            | _ => none
          | none => none
        | _ => none
      | none => none
    | _ => none

/-- Elements of a JSON array after `[` (input known not to start with `]`). -/
def parseElems : Nat → List Char → List Json → Option (Json × List Char)
  | 0, _, _ => none
  | fuel + 1, s, acc =>
    match parseValue fuel s with
    | some (v, r) =>
      match skipWs r with
      | ',' :: r2 => parseElems fuel r2 (acc ++ [v])
      | ']' :: r2 => some (Json.arr (acc ++ [v]), r2)
      | _ => none
    | none => none

end

/-- Model of Python `json.loads`: decode one value, allow only trailing
whitespace, collapse every failure to `none` (the exception). -/
def json_loads (s : List Char) : Option Json :=
  match parseValue (2 * s.length + 2) s with
  | some (v, rest) => if skipWs rest = [] then some v else none
  | none => none

/-! ## The extraction step of `analyze_image` (app.py lines 83-92) -/

/-- app.py lines 85-87:
`json_start = content.find("{")`, `json_end = content.rfind("}") + 1`,
`json_text = content[json_start:json_end]`. -/
def extractJsonText (content : List Char) : List Char :=
  let json_start := pyFind '\x7b' content
  let json_end := pyRfind '\x7d' content + 1
  pySlice content json_start json_end

/-- Observable outcome of the extraction step: the returned value and the
Streamlit messages emitted on the way. -/
structure ParseOutcome where
  result : Option Json
  messages : List (List Char)

/-- The `st.error` banner of the except-branch (app.py line 90). -/
def errorBanner : List Char :=
  "Failed to parse model\x27s response as JSON.".data

/-- app.py lines 83-92: extract the brace-delimited slice, `json.loads` it
and return the decoded value; on any exception emit the error banner and
the full original text (`st.text(content)`) and return `None`. -/
def analyze_image_parse (content : List Char) : ParseOutcome :=
  match json_loads (extractJsonText content) with
  | some v => ⟨some v, []⟩
  | none => ⟨none, [errorBanner, content]⟩

/-- The value the extraction step returns to its caller. -/
def parseReturn (content : List Char) : Option Json :=
  (analyze_image_parse content).result

/-! ## `calculate_roi` (app.py lines 101-121) -/

/-- A Python float that is either an ordinary (here: exactly represented)
number or `float("inf")`. -/
inductive PaybackValue where
  | finite (val : ℚ)
  | posInf
deriving DecidableEq

/-- The dict returned by `calculate_roi`. -/
structure ROIProjection where
  total_watts : ℚ
  installation_cost : ℚ
  incentive : ℚ
  net_cost : ℚ
  annual_savings : ℚ
  payback_period_years : PaybackValue
deriving DecidableEq

/-- app.py lines 101-121, with the local constant `panel_efficiency`
(`0.20`, bound by the source but never used) exposed as a parameter so
that its irrelevance can be stated. -/
def calculate_roi_withEfficiency (panel_efficiency : ℚ)
    (roof_area_sqm estimated_annual_kwh electricity_rate : ℚ) : ROIProjection :=
  let cost_per_watt : ℚ := 3
  let incentive_rate : ℚ := 3 / 10
  let panel_watts_per_sqm : ℚ := 200
  let total_watts := roof_area_sqm * panel_watts_per_sqm
  let installation_cost := total_watts * cost_per_watt
  let incentive := installation_cost * incentive_rate
  let net_cost := installation_cost - incentive
  let annual_savings := estimated_annual_kwh * electricity_rate
  let payback_period :=
    if annual_savings > 0 then PaybackValue.finite (net_cost / annual_savings)
    else PaybackValue.posInf
  ⟨total_watts, installation_cost, incentive, net_cost, annual_savings, payback_period⟩

/-- app.py lines 101-121 with the source's value of the unused constant. -/
def calculate_roi (roof_area_sqm estimated_annual_kwh electricity_rate : ℚ) : ROIProjection :=
  calculate_roi_withEfficiency (1 / 5) roof_area_sqm estimated_annual_kwh electricity_rate

/-! ## Spec-side definitions (§3 of the spec), used to state claims -/

def isNumVal : Option Json → Bool
  | some (Json.num _ _) => true
  | _ => false

def isStrVal : Option Json → Bool
  | some (Json.str _) => true
  | _ => false

/-- Lookup in a decoded object. -/
def lookupKey (m : List (List Char × Json)) (k : List Char) : Option Json :=
  match m with
  | [] => none
  | (k0, v) :: rest => if k0 = k then some v else lookupKey rest k

/-- Spec §3: the six required fields are present with their declared
types (five numeric, one string). -/
def spec_requiredFieldsOk (m : List (List Char × Json)) : Bool :=
  isNumVal (lookupKey m "roof_area_sqm".data)
    && isNumVal (lookupKey m "azimuth_degrees".data)
    && isNumVal (lookupKey m "tilt_degrees".data)
    && isNumVal (lookupKey m "shading_percentage".data)
    && isStrVal (lookupKey m "suggested_panel_type".data)
    && isNumVal (lookupKey m "estimated_annual_kwh".data)

/-- Spec §7: the failure value returned to the caller lets the caller
recover the complete original raw text of any malformed-JSON input. -/
def rawRecoverableFromResult : Prop :=
  ∃ recover : Option Json → List Char,
    ∀ s : List Char, '\x7b' ∈ s → '\x7d' ∈ s →
      json_loads (extractJsonText s) = none →
      recover (analyze_image_parse s).result = s

/-! ## Helper lemmas about the string primitives -/

theorem firstIdx_eq_none_iff (c : Char) (s : List Char) :
    firstIdx c s = none ↔ c ∉ s := by
  induction s with
  | nil => simp [firstIdx]
  | cons x xs ih =>
    rw [firstIdx]
    by_cases hx : x = c
    · simp [hx]
    · rw [if_neg hx, List.mem_cons]
      simp only [Option.map_eq_none']
      rw [ih]
      exact ⟨fun h hm => hm.elim (fun he => hx he.symm) h,
             fun h hm => h (Or.inr hm)⟩

theorem lastIdx_eq_none_iff (c : Char) (s : List Char) :
    lastIdx c s = none ↔ c ∉ s := by
  induction s with
  | nil => simp [lastIdx]
  | cons x xs ih =>
    by_cases hx : x = c
    · cases h : lastIdx c xs <;> simp [lastIdx, hx, h, eq_comm]
    · cases h : lastIdx c xs <;>
        simp_all [lastIdx, hx, eq_comm, Ne.symm hx]

theorem lastIdx_lt_length {c : Char} {s : List Char} {j : Nat}
    (h : lastIdx c s = some j) : j < s.length := by
  induction s generalizing j with
  | nil => simp [lastIdx] at h
  | cons x xs ih =>
    rw [lastIdx] at h
    cases h' : lastIdx c xs with
    | some i =>
      rw [h'] at h
      cases h
      exact Nat.succ_lt_succ (ih h')
    | none =>
      rw [h'] at h
      by_cases hx : x = c
      · rw [if_pos hx] at h
        cases h
        simp
      · rw [if_neg hx] at h
        cases h

theorem lastIdx_getElem {c : Char} {s : List Char} {j : Nat}
    (h : lastIdx c s = some j) : s[j]? = some c := by
  induction s generalizing j with
  | nil => simp [lastIdx] at h
  | cons x xs ih =>
    rw [lastIdx] at h
    cases h' : lastIdx c xs with
    | some i =>
      rw [h'] at h
      cases h
      simpa using ih h'
    | none =>
      rw [h'] at h
      by_cases hx : x = c
      · rw [if_pos hx] at h
        cases h
        simp [hx]
      · rw [if_neg hx] at h
        cases h

theorem firstIdx_append_of_not_mem {c : Char} {p : List Char}
    (hp : c ∉ p) (s : List Char) :
    firstIdx c (p ++ s) = (firstIdx c s).map (· + p.length) := by
  induction p with
  | nil => cases h : firstIdx c s <;> simp [h]
  | cons x xs ih =>
    have hx : x ≠ c := fun he => hp (he ▸ List.mem_cons_self x xs)
    have hxs : c ∉ xs := fun hm => hp (List.mem_cons_of_mem x hm)
    rw [List.cons_append, firstIdx, if_neg hx, ih hxs]
    cases h : firstIdx c s <;> simp [h, Nat.add_assoc]

theorem lastIdx_append_of_not_mem {c : Char} {q : List Char}
    (hq : c ∉ q) (s : List Char) :
    lastIdx c (s ++ q) = lastIdx c s := by
  induction s with
  | nil =>
    rw [List.nil_append, (lastIdx_eq_none_iff c q).mpr hq]
    rfl
  | cons x xs ih =>
    rw [List.cons_append, lastIdx, ih, lastIdx]

theorem lastIdx_append_of_mem {c : Char} {s : List Char} {j : Nat}
    (h : lastIdx c s = some j) (p : List Char) :
    lastIdx c (p ++ s) = some (p.length + j) := by
  induction p with
  | nil => simpa using h
  | cons x xs ih =>
    rw [List.cons_append, lastIdx, ih]
    simp [Nat.add_assoc, Nat.add_comm 1 j, Nat.succ_add]

theorem lastIdx_of_getLast {c : Char} {s : List Char}
    (h : s.getLast? = some c) : lastIdx c s = some (s.length - 1) := by
  induction s with
  | nil => simp at h
  | cons x xs ih =>
    cases xs with
    | nil =>
      simp only [List.getLast?_singleton, Option.some.injEq] at h
      simp [lastIdx, h]
    | cons y ys =>
      rw [List.getLast?_cons_cons] at h
      have := ih h
      rw [lastIdx, this]
      show some ((y :: ys).length - 1 + 1) = some ((x :: y :: ys).length - 1)
      congr 1

theorem pySlice_stop_zero (s : List Char) (a : Int) : pySlice s a 0 = [] := by
  simp [pySlice, pyNormIdx]

theorem pyFind_of_none {c : Char} {s : List Char}
    (h : firstIdx c s = none) : pyFind c s = -1 := by
  unfold pyFind
  rw [h]

theorem pyFind_of_some {c : Char} {s : List Char} {i : Nat}
    (h : firstIdx c s = some i) : pyFind c s = (i : Int) := by
  unfold pyFind
  rw [h]

theorem pyRfind_of_none {c : Char} {s : List Char}
    (h : lastIdx c s = none) : pyRfind c s = -1 := by
  unfold pyRfind
  rw [h]

theorem pyRfind_of_some {c : Char} {s : List Char} {i : Nat}
    (h : lastIdx c s = some i) : pyRfind c s = (i : Int) := by
  unfold pyRfind
  rw [h]

theorem pySlice_eq (s : List Char) (a b : Int) :
    pySlice s a b
      = (s.drop (pyNormIdx s.length a)).take
          (pyNormIdx s.length b - pyNormIdx s.length a) := rfl

theorem pyNormIdx_neg_one (len : Nat) : pyNormIdx len (-1) = len - 1 := by
  unfold pyNormIdx
  rw [if_pos (by norm_num)]
  omega

theorem pyNormIdx_coe {len n : Nat} (h : n ≤ len) :
    pyNormIdx len (n : Int) = n := by
  unfold pyNormIdx
  rw [if_neg (by omega)]
  simp [Int.toNat_ofNat, Nat.min_eq_left h]

theorem extract_eq (s : List Char) :
    extractJsonText s = pySlice s (pyFind '\x7b' s) (pyRfind '\x7d' s + 1) := rfl

theorem eq_singleton_of_length_one {α : Type} {l : List α} {a : α}
    (h1 : l.length = 1) (h2 : l[0]? = some a) : l = [a] := by
  match l with
  | [] => simp at h1
  | [b] =>
    simp only [List.getElem?_cons_zero, Option.some.injEq] at h2
    rw [h2]
  | b :: b' :: t => simp at h1

/-- When `{` or `}` is absent the sliced text is `""` or `"}"`. -/
theorem extract_of_missing_brace (s : List Char)
    (h : '\x7b' ∉ s ∨ '\x7d' ∉ s) :
    extractJsonText s = [] ∨ extractJsonText s = ['\x7d'] := by
  rw [extract_eq]
  cases hr : lastIdx '\x7d' s with
  | none =>
    left
    rw [pyRfind_of_none hr, show (-1 : Int) + 1 = 0 by norm_num]
    exact pySlice_stop_zero s _
  | some j =>
    have hmem : '\x7d' ∈ s := by
      by_contra hnm
      rw [(lastIdx_eq_none_iff _ _).mpr hnm] at hr
      cases hr
    have hlb : '\x7b' ∉ s := by
      rcases h with h | h
      · exact h
      · exact absurd hmem h
    have hj : j < s.length := lastIdx_lt_length hr
    rw [pyRfind_of_some hr, pyFind_of_none ((firstIdx_eq_none_iff _ _).mpr hlb)]
    rw [show ((j : Int) + 1) = ((j + 1 : Nat) : Int) by push_cast; ring]
    rw [pySlice_eq, pyNormIdx_neg_one, pyNormIdx_coe (by omega)]
    rcases Nat.lt_or_ge j (s.length - 1) with hlt | hge
    · left
      rw [show j + 1 - (s.length - 1) = 0 by omega, List.take_zero]
    · right
      have hjeq : j = s.length - 1 := by omega
      have hlen1 : (s.drop (s.length - 1)).length = 1 := by
        rw [List.length_drop]
        omega
      have hget : (s.drop (s.length - 1))[0]? = some '\x7d' := by
        rw [List.getElem?_drop]
        have := lastIdx_getElem hr
        rw [hjeq] at this
        simpa using this
      rw [eq_singleton_of_length_one hlen1 hget,
          show j + 1 - (s.length - 1) = 1 by omega]
      rfl

theorem json_loads_nil : json_loads [] = none := rfl

theorem json_loads_rbrace : json_loads ['\x7d'] = none := rfl

/-- The except-branch of app.py lines 89-92. -/
theorem parse_fail_eq {s : List Char}
    (h : json_loads (extractJsonText s) = none) :
    analyze_image_parse s = ⟨none, [errorBanner, s]⟩ := by
  unfold analyze_image_parse
  rw [h]

/-- The success branch of app.py line 88. -/
theorem parse_ok_eq {s : List Char} {v : Json}
    (h : json_loads (extractJsonText s) = some v) :
    analyze_image_parse s = ⟨some v, []⟩ := by
  unfold analyze_image_parse
  rw [h]

/-- Brace-free prose around a brace-delimited payload does not change the
extracted slice. -/
theorem extract_wrapped (p q s : List Char)
    (hp1 : '\x7b' ∉ p) (hq2 : '\x7d' ∉ q)
    (hs1 : s.head? = some '\x7b') (hs2 : s.getLast? = some '\x7d') :
    extractJsonText (p ++ s ++ q) = s := by
  match s, hs1 with
  | b :: t, hs1 =>
    have hb : b = '\x7b' := by simpa using hs1
    subst hb
    have hfi : firstIdx '\x7b' (p ++ ('\x7b' :: t) ++ q) = some p.length := by
      rw [List.append_assoc, firstIdx_append_of_not_mem hp1]
      rw [List.cons_append, firstIdx, if_pos rfl]
      simp
    have hslen : ('\x7b' :: t).length - 1 + 1 = ('\x7b' :: t).length := by
      simp
    have hla : lastIdx '\x7d' (p ++ ('\x7b' :: t) ++ q)
        = some (p.length + (('\x7b' :: t).length - 1)) := by
      rw [lastIdx_append_of_not_mem hq2]
      exact lastIdx_append_of_mem (lastIdx_of_getLast hs2) p
    rw [extract_eq, pyFind_of_some hfi, pyRfind_of_some hla]
    rw [show ((p.length + (('\x7b' :: t).length - 1) : Nat) : Int) + 1
          = ((p.length + ('\x7b' :: t).length : Nat) : Int) by
        push_cast [hslen]
        omega]
    have htot : p.length + ('\x7b' :: t).length ≤ (p ++ ('\x7b' :: t) ++ q).length := by
      simp [List.length_append]
    rw [pySlice_eq, pyNormIdx_coe (le_trans (Nat.le_add_right _ _) htot),
        pyNormIdx_coe htot]
    rw [Nat.add_sub_cancel_left, List.append_assoc, List.drop_left, List.take_left]

/-! ## Sample data for witnesses -/

/-- Prose prefix with a code fence and no braces. -/
def samplePre : List Char :=
  "Sure! Here is the JSON you asked for:\n```json\n".data

/-- Prose suffix with a code fence and no braces. -/
def samplePost : List Char :=
  "\n```\nThanks.".data

/-- A bare JSON object text with the six required fields. -/
def sampleBare : List Char :=
  "\x7b\"roof_area_sqm\": 100.0, \"azimuth_degrees\": 180.0, \"tilt_degrees\": 25.0, \"shading_percentage\": 10.0, \"suggested_panel_type\": \"monocrystalline\", \"estimated_annual_kwh\": 10000.0\x7d".data

/-- The decoded fields of `sampleBare`. -/
def sampleFields : List (List Char × Json) :=
  [("roof_area_sqm".data, Json.num 1000 (-1)),
   ("azimuth_degrees".data, Json.num 1800 (-1)),
   ("tilt_degrees".data, Json.num 250 (-1)),
   ("shading_percentage".data, Json.num 100 (-1)),
   ("suggested_panel_type".data, Json.str "monocrystalline".data),
   ("estimated_annual_kwh".data, Json.num 100000 (-1))]

/-- A JSON object with the six required fields plus a seventh key. -/
def sampleSevenKeys : List Char :=
  "\x7b\"roof_area_sqm\": 80.5, \"azimuth_degrees\": 175, \"tilt_degrees\": 30, \"shading_percentage\": 5, \"suggested_panel_type\": \"bifacial\", \"estimated_annual_kwh\": 9000, \"confidence\": 0.9\x7d".data

/-- The decoded fields of `sampleSevenKeys`, the seventh key included. -/
def sampleSevenFields : List (List Char × Json) :=
  [("roof_area_sqm".data, Json.num 805 (-1)),
   ("azimuth_degrees".data, Json.num 175 0),
   ("tilt_degrees".data, Json.num 30 0),
   ("shading_percentage".data, Json.num 5 0),
   ("suggested_panel_type".data, Json.str "bifacial".data),
   ("estimated_annual_kwh".data, Json.num 9000 0),
   ("confidence".data, Json.num 9 (-1))]

/-! ## Claims -/

/-- C1 counterexample: on the spec's own example input
`'{"roof_area_sqm": 10.0}'` the extraction step does not fail with any
missing-field error: it succeeds and returns the partial one-field record,
so the claimed all-or-nothing validation does not exist in the code. -/
theorem parse_incomplete_record_succeeds :
    parseReturn "\x7b\"roof_area_sqm\": 10.0\x7d".data
      = some (Json.obj [("roof_area_sqm".data, Json.num 100 (-1))]) := rfl

/-- C1 (amended): the extraction step performs no field-presence or type
validation at all: whenever the brace-delimited slice decodes as a JSON
object, the decoded object is returned as-is even when the six required
fields are not all present with their declared types. -/
theorem parse_skips_field_validation (s : List Char) (m : List (List Char × Json))
    (h : json_loads (extractJsonText s) = some (Json.obj m))
    (_hmiss : spec_requiredFieldsOk m = false) :
    parseReturn s = some (Json.obj m) := by
  unfold parseReturn
  rw [parse_ok_eq h]

/-- C1 witness: a concrete partial record that is returned although its
required-field check fails. -/
theorem parse_skips_field_validation_witness :
    parseReturn "\x7b\"roof_area_sqm\": 20.0\x7d".data
      = some (Json.obj [("roof_area_sqm".data, Json.num 200 (-1))]) :=
  parse_skips_field_validation _ _ rfl rfl

/-- C2 counterexample: the brace-free input of the claim and the spec's
malformed-JSON example produce the identical return value `none`; the code
has no distinct `NoJsonFound` error at all. -/
theorem no_braces_outcome_indistinct :
    parseReturn "no braces here".data
        = parseReturn "prefix \x7bnot: valid json\x7d suffix".data
    ∧ parseReturn "no braces here".data = none := ⟨rfl, rfl⟩

/-- C2 (amended): for every input in which `{` or `}` does not occur the
extraction step does fail, but with the single undifferentiated outcome
`None` plus the generic diagnostic messages — the same outcome as for
malformed JSON, not a distinct `NoJsonFound` error. -/
theorem parse_fails_without_braces (s : List Char)
    (h : '\x7b' ∉ s ∨ '\x7d' ∉ s) :
    analyze_image_parse s = ⟨none, [errorBanner, s]⟩ := by
  rcases extract_of_missing_brace s h with he | he <;>
    exact parse_fail_eq (by rw [he]; rfl)

/-- C2 witness: the claim's example input. -/
theorem parse_fails_without_braces_witness :
    analyze_image_parse "no braces here".data
      = ⟨none, [errorBanner, "no braces here".data]⟩ :=
  parse_fails_without_braces _ (Or.inl (by decide))

/-- C3: the five arithmetic formulas of `calculate_roi` hold for all
inputs, and the spec's worked example
`compute(100, 10000, 0.15)` yields exactly the listed projection,
payback 28 years included. -/
theorem calculate_roi_formulas (a k r : ℚ) :
    (calculate_roi a k r).total_watts = a * 200
    ∧ (calculate_roi a k r).installation_cost = (calculate_roi a k r).total_watts * 3
    ∧ (calculate_roi a k r).incentive = (calculate_roi a k r).installation_cost * (3 / 10)
    ∧ (calculate_roi a k r).net_cost
        = (calculate_roi a k r).installation_cost - (calculate_roi a k r).incentive
    ∧ (calculate_roi a k r).annual_savings = k * r
    ∧ calculate_roi 100 10000 (3 / 20)
        = ⟨20000, 60000, 18000, 42000, 1500, PaybackValue.finite 28⟩ := by
  refine ⟨rfl, rfl, rfl, rfl, rfl, ?_⟩
  simp only [calculate_roi, calculate_roi_withEfficiency, ROIProjection.mk.injEq]
  norm_num

/-- C4: `calculate_roi` is a total function (it is defined for all
rational inputs); its only division sits under the `annual_savings > 0`
guard, so nonpositive savings (in particular `estimated_annual_kwh = 0`)
give payback `float("inf")`, and positive savings give
`net_cost / annual_savings`. -/
theorem calculate_roi_payback_guard (a k r : ℚ) :
    ((calculate_roi a k r).annual_savings ≤ 0 →
      (calculate_roi a k r).payback_period_years = PaybackValue.posInf)
    ∧ (0 < (calculate_roi a k r).annual_savings →
      (calculate_roi a k r).payback_period_years
        = PaybackValue.finite
            ((calculate_roi a k r).net_cost / (calculate_roi a k r).annual_savings))
    ∧ (calculate_roi a 0 r).annual_savings = 0
    ∧ (calculate_roi a 0 r).payback_period_years = PaybackValue.posInf := by
  refine ⟨?_, ?_, by simp [calculate_roi, calculate_roi_withEfficiency], ?_⟩
  · intro h
    have h' : ¬ (0 < k * r) := not_lt.mpr h
    show (if 0 < k * r then _ else _) = _
    rw [if_neg h']
  · intro h
    have h' : 0 < k * r := h
    show (if 0 < k * r then _ else _) = _
    rw [if_pos h']
    rfl
  · show (if 0 < (0 : ℚ) * r then _ else _) = _
    rw [if_neg (by norm_num)]

/-- C4 witness: the spec's example `compute(50, 0, 0.15)`. -/
theorem calculate_roi_payback_guard_witness :
    (calculate_roi 50 0 (3 / 20)).payback_period_years = PaybackValue.posInf :=
  (calculate_roi_payback_guard 50 0 (3 / 20)).1 (by norm_num [calculate_roi, calculate_roi_withEfficiency])

/-- C5: wrapping a brace-delimited JSON object text that carries the six
required fields in brace-free leading/trailing prose (code fences
included) does not change the parse result: the wrapped input decodes to
exactly the fields of the bare object. -/
theorem parse_roundtrip_wrapped (p q s : List Char) (m : List (List Char × Json))
    (hp1 : '\x7b' ∉ p) (_hp2 : '\x7d' ∉ p) (_hq1 : '\x7b' ∉ q) (hq2 : '\x7d' ∉ q)
    (hs1 : s.head? = some '\x7b') (hs2 : s.getLast? = some '\x7d')
    (hdec : json_loads s = some (Json.obj m))
    (_hfields : spec_requiredFieldsOk m = true) :
    parseReturn (p ++ s ++ q) = some (Json.obj m) := by
  unfold parseReturn
  rw [parse_ok_eq (show json_loads (extractJsonText (p ++ s ++ q)) = some (Json.obj m) by
    rw [extract_wrapped p q s hp1 hq2 hs1 hs2]
    exact hdec)]

set_option maxRecDepth 100000 in
/-- C5 witness: a fenced, prose-wrapped model answer with all six
fields round-trips to the decoded bare object. -/
theorem parse_roundtrip_wrapped_witness :
    parseReturn (samplePre ++ sampleBare ++ samplePost)
      = some (Json.obj sampleFields) :=
  parse_roundtrip_wrapped samplePre samplePost sampleBare sampleFields
    (by decide) (by decide) (by decide) (by decide) rfl rfl rfl rfl

/-- C6 counterexample: the value returned on a malformed-JSON failure is
the bare `None`, identical for all such inputs, so no function of the
returned result can recover the original raw text — the claimed
diagnostic-carrying error outcome does not exist. -/
theorem raw_text_not_recoverable : ¬ rawRecoverableFromResult := by
  rintro ⟨recover, hrec⟩
  have h1 := hrec "\x7ba\x7d".data (by decide) (by decide) rfl
  have h2 := hrec "\x7bb\x7d".data (by decide) (by decide) rfl
  rw [show (analyze_image_parse "\x7ba\x7d".data).result = none from rfl] at h1
  rw [show (analyze_image_parse "\x7bb\x7d".data).result = none from rfl] at h2
  rw [h1] at h2
  exact absurd h2 (by decide)

/-- C6 (amended): on any decode failure the function itself emits the
complete original raw input text as a diagnostic message (after the short
error banner), rather than carrying it in the returned error value. -/
theorem parse_failure_displays_raw (s : List Char)
    (h : json_loads (extractJsonText s) = none) :
    (analyze_image_parse s).messages = [errorBanner, s] := by
  rw [parse_fail_eq h]

/-- C6 witness: a concrete malformed input whose full raw text appears in
the emitted messages. -/
theorem parse_failure_displays_raw_witness :
    (analyze_image_parse "Result: \x7boops\x7d".data).messages
      = [errorBanner, "Result: \x7boops\x7d".data] :=
  parse_failure_displays_raw _ rfl

/-- C7 counterexample: the extraction step is not side-effect-free — on a
failing input it writes two messages (an error banner and the raw text) to
the UI. -/
theorem parse_failure_emits_messages :
    (analyze_image_parse "See: \x7bbroken\x7d".data).messages ≠ [] := by
  rw [show analyze_image_parse "See: \x7bbroken\x7d".data
        = ⟨none, [errorBanner, "See: \x7bbroken\x7d".data]⟩ from rfl]
  simp

/-- C7 (amended): both entry points are deterministic — equal inputs give
equal outcomes, messages included — and `calculate_roi` is
side-effect-free; the extraction step emits no messages on success, but
does write diagnostics on failure. -/
theorem parse_compute_deterministic (s₁ s₂ : List Char) (a k r a' k' r' : ℚ) :
    (s₁ = s₂ → analyze_image_parse s₁ = analyze_image_parse s₂)
    ∧ (∀ v, parseReturn s₁ = some v → (analyze_image_parse s₁).messages = [])
    ∧ (a = a' → k = k' → r = r' → calculate_roi a k r = calculate_roi a' k' r') := by
  refine ⟨fun h => by rw [h], ?_, fun h1 h2 h3 => by rw [h1, h2, h3]⟩
  intro v hv
  cases h : json_loads (extractJsonText s₁) with
  | some w => rw [parse_ok_eq h]
  | none =>
    rw [show parseReturn s₁ = (analyze_image_parse s₁).result from rfl,
        parse_fail_eq h] at hv
    simp at hv

/-- C7 witness: a successful parse emits no messages. -/
theorem parse_compute_deterministic_witness :
    (analyze_image_parse "\x7b\"ok\": true\x7d".data).messages = [] :=
  (parse_compute_deterministic "\x7b\"ok\": true\x7d".data [] 0 0 0 0 0 0).2.1
    (Json.obj [("ok".data, Json.bool true)]) rfl

/-- C8: whenever the brace-delimited slice decodes, the extraction step
returns exactly the decoded value, with no filtering or normalisation —
keys beyond the six required ones included. -/
theorem parse_passthrough (s : List Char) (v : Json)
    (h : json_loads (extractJsonText s) = some v) :
    parseReturn s = some v := by
  unfold parseReturn
  rw [parse_ok_eq h]

set_option maxRecDepth 100000 in
/-- C8 witness: an object with a seventh key is returned with that key
preserved. -/
theorem parse_passthrough_witness :
    parseReturn sampleSevenKeys = some (Json.obj sampleSevenFields) :=
  parse_passthrough sampleSevenKeys (Json.obj sampleSevenFields) rfl

/-- C9: the extraction-and-decode step is a total function whose outcome
is either a decoded value with no messages or the single failure outcome
`None`; all three failure modes — braces absent, empty slice, slice not
valid JSON — collapse to that one outcome (exceptions are modelled by the
`none` branch of `json_loads`, so none can escape). -/
theorem extraction_step_total (s : List Char) :
    (∀ v, json_loads (extractJsonText s) = some v →
      analyze_image_parse s = ⟨some v, []⟩)
    ∧ (json_loads (extractJsonText s) = none →
        analyze_image_parse s = ⟨none, [errorBanner, s]⟩)
    ∧ (('\x7b' ∉ s ∨ '\x7d' ∉ s) → parseReturn s = none)
    ∧ (extractJsonText s = [] → parseReturn s = none)
    ∧ ((analyze_image_parse s).result = none
        ∨ ∃ v, (analyze_image_parse s).result = some v) := by
  refine ⟨fun v h => parse_ok_eq h, fun h => parse_fail_eq h, ?_, ?_, ?_⟩
  · intro h
    rcases extract_of_missing_brace s h with he | he <;>
      · unfold parseReturn
        rw [parse_fail_eq (show json_loads (extractJsonText s) = none by rw [he]; rfl)]
  · intro he
    unfold parseReturn
    rw [parse_fail_eq (show json_loads (extractJsonText s) = none by
      rw [he]; exact json_loads_nil)]
  · cases h : (analyze_image_parse s).result with
    | none => exact Or.inl rfl
    | some v => exact Or.inr ⟨v, rfl⟩

/-- C9 witness: a concrete input with no JSON collapses to `none`. -/
theorem extraction_step_total_witness :
    parseReturn "just text".data = none :=
  (extraction_step_total "just text".data).2.2.1 (Or.inl (by decide))

/-- C10: `net_cost` equals `420 ×  roof_area_sqm` for all inputs — linear
in the roof area and independent of `estimated_annual_kwh` and
`electricity_rate` — and the bound-but-unused constant `panel_efficiency`
has no effect on any field of the projection. -/
theorem net_cost_linear_efficiency_unused (a k r k' r' e : ℚ) :
    (calculate_roi a k r).net_cost = 420 * a
    ∧ (calculate_roi a k' r').net_cost = (calculate_roi a k r).net_cost
    ∧ calculate_roi_withEfficiency e a k r = calculate_roi a k r := by
  refine ⟨?_, rfl, rfl⟩
  have h : (calculate_roi a k r).net_cost
      = a * 200 * 3 - a * 200 * 3 * (3 / 10) := rfl
  rw [h]
  ring
